import Mathlib

/-!
Verification of the swyft-loan-calc calculation engines.

The three engines (loan amortization, income tax, income annualisation) are
embedded shallowly over the rationals: every JavaScript `number` is modelled
as a `ℚ`, so the algebraic identities of the engines can be settled exactly.
-/

namespace LoanCalc

/-- Repayment frequency for the loan engine (weekly | fortnightly | monthly). -/
inductive Frequency where
  | weekly
  | fortnightly
  | monthly
deriving DecidableEq, Repr

/-- Input record of `calculateLoanRepayments`. -/
structure LoanInputs where
  loanAmount : ℚ
  interestRate : ℚ
  loanTerm : ℚ
  repaymentFrequency : Frequency
  hasResidualPayment : Bool
  residualPayment : ℚ
deriving DecidableEq, Repr

/-- Result record of `calculateLoanRepayments`. -/
structure CalculationResults where
  repaymentPerPeriod : ℚ
  totalAmountPayable : ℚ
  totalInterest : ℚ
  periodsPerYear : ℚ
  totalPeriods : ℚ
deriving DecidableEq, Repr

/-- One row of the amortization schedule. -/
structure AmortizationEntry where
  paymentNumber : ℕ
  paymentAmount : ℚ
  principalAmount : ℚ
  interestAmount : ℚ
  remainingBalance : ℚ
deriving DecidableEq, Repr

/-- `repaymentFrequency === "weekly" ? 52 : === "fortnightly" ? 26 : 12`. -/
def periodsPerYear : Frequency → ℚ
  | .weekly => 52
  | .fortnightly => 26
  | .monthly => 12

/-- `periodicRate = interestRate / 100 / periodsPerYear`. -/
def periodicRate (i : LoanInputs) : ℚ :=
  i.interestRate / 100 / periodsPerYear i.repaymentFrequency

/-- `totalPeriods = loanTerm * periodsPerYear`. -/
def totalPeriods (i : LoanInputs) : ℚ :=
  i.loanTerm * periodsPerYear i.repaymentFrequency

/-- The number of periods as a natural number.  The engine's loop and the
exponent of `Math.pow` are only meaningful when `totalPeriods` is a
non-negative integer (the spec requires callers to supply such terms); the
well-formedness predicate below demands `totalPeriods = nPeriods`. -/
def nPeriods (i : LoanInputs) : ℕ :=
  (totalPeriods i).num.toNat

/-- `actualResidual = hasResidualPayment ? residualPayment : 0`. -/
def actualResidual (i : LoanInputs) : ℚ :=
  if i.hasResidualPayment then i.residualPayment else 0

/-- `calculateLoanRepayments` from the extracted loan-calculator logic:
rejects (returns `none`) when `loanAmount <= 0 || interestRate < 0 ||
loanTerm <= 0`; otherwise fills the five-field result record, with a special
branch for a zero periodic rate and the PMT formula otherwise. -/
def calculateLoanRepayments (i : LoanInputs) : Option CalculationResults :=
  if i.loanAmount ≤ 0 ∨ i.interestRate < 0 ∨ i.loanTerm ≤ 0 then
    none
  else
    let ppy := periodsPerYear i.repaymentFrequency
    let rate := periodicRate i
    let n := totalPeriods i
    let residual := actualResidual i
    let principalToAmortize := i.loanAmount - residual
    if rate = 0 then
      some {
        repaymentPerPeriod := principalToAmortize / n
        totalAmountPayable := principalToAmortize + residual
        totalInterest := 0
        periodsPerYear := ppy
        totalPeriods := n }
    else
      let powerTerm := (1 + rate) ^ nPeriods i
      let repaymentPerPeriod := principalToAmortize * rate * powerTerm / (powerTerm - 1)
      let totalAmountPayable := repaymentPerPeriod * n + residual
      some {
        repaymentPerPeriod := repaymentPerPeriod
        totalAmountPayable := totalAmountPayable
        totalInterest := totalAmountPayable - i.loanAmount
        periodsPerYear := ppy
        totalPeriods := n }

/-- The regular part of the amortization loop: starting at payment index
`idx` with the given running balance, emits the remaining entries.  The
final remaining entry is the adjusted one (`principal = balance`,
`payment = balance + interest`, recorded balance `0`); every earlier entry
records `max 0` of the carried balance while the carried balance itself may
go negative, exactly as in the source loop. -/
def regularSchedule (rate pmt : ℚ) (balance : ℚ) (idx : ℕ) : ℕ → List AmortizationEntry
  | 0 => []
  | 1 =>
    [{ paymentNumber := idx
       paymentAmount := balance + balance * rate
       principalAmount := balance
       interestAmount := balance * rate
       remainingBalance := 0 }]
  | (m + 2) =>
    { paymentNumber := idx
      paymentAmount := pmt
      principalAmount := pmt - balance * rate
      interestAmount := balance * rate
      remainingBalance := max 0 (balance - (pmt - balance * rate)) } ::
    regularSchedule rate pmt (balance - (pmt - balance * rate)) (idx + 1) (m + 1)

/-- `generateAmortizationSchedule`: empty when the calculation result is
absent; otherwise the regular loop for `totalPeriods` entries, followed by
the balloon entry when `hasResidualPayment && residualPayment > 0`. -/
def generateAmortizationSchedule (i : LoanInputs)
    (res : Option CalculationResults) : List AmortizationEntry :=
  match res with
  | none => []
  | some c =>
    let rate := i.interestRate / 100 / c.periodsPerYear
    let n := c.totalPeriods.num.toNat
    let regular := regularSchedule rate c.repaymentPerPeriod
      (i.loanAmount - actualResidual i) 1 n
    if i.hasResidualPayment = true ∧ 0 < i.residualPayment then
      regular ++ [{ paymentNumber := n + 1
                    paymentAmount := i.residualPayment
                    principalAmount := i.residualPayment
                    interestAmount := 0
                    remainingBalance := 0 }]
    else
      regular

/-- Valid loan parameters as the spec's data model demands: positive
principal, non-negative rate, positive term, a residual in `[0, principal)`
when enabled, and an effectively integral number of periods. -/
def ValidLoan (i : LoanInputs) : Prop :=
  0 < i.loanAmount ∧ 0 ≤ i.interestRate ∧ 0 < i.loanTerm ∧
  (i.hasResidualPayment = true → 0 ≤ i.residualPayment ∧ i.residualPayment < i.loanAmount) ∧
  totalPeriods i = (nPeriods i : ℚ)

instance (i : LoanInputs) : Decidable (ValidLoan i) := by
  unfold ValidLoan
  infer_instance

/-- Sum of the `paymentAmount` column of a schedule. -/
def sumPayments (l : List AmortizationEntry) : ℚ :=
  (l.map AmortizationEntry.paymentAmount).sum

/-- Sum of the `principalAmount` column of a schedule. -/
def sumPrincipals (l : List AmortizationEntry) : ℚ :=
  (l.map AmortizationEntry.principalAmount).sum

/-- Running balance of the amortization loop: `balIter rate pmt b k` is the
carried balance after `k` regular (non-final) payments starting from `b`;
each step performs `b := b + b*rate - pmt`. -/
def balIter (rate pmt : ℚ) (b : ℚ) : ℕ → ℚ
  | 0 => b
  | (k + 1) => balIter rate pmt (b - (pmt - b * rate)) k

/-- A valid input whose enabled residual equals the whole principal; the
engine still returns a result for it. -/
def residualAtPrincipal : LoanInputs := ⟨100, 0, 1, .monthly, true, 100⟩

/-- A valid zero-rate input with a nonzero residual. -/
def zeroRateWithResidual : LoanInputs := ⟨100, 0, 1, .monthly, true, 40⟩

/-- A valid one-period positive-rate input with a small residual: its
schedule is a final regular entry followed by the balloon entry. -/
def smallResidualLoan : LoanInputs := ⟨100, 12, 1/12, .monthly, true, 1⟩

end LoanCalc

namespace TaxCalc

/-- A configured tax bracket: floor, nullable ceiling, marginal rate and
base tax below the floor. -/
structure TaxBracket where
  min : ℚ
  max : Option ℚ
  rate : ℚ
  baseTax : ℚ
deriving DecidableEq, Repr

/-- The 2024-25 bracket table configured in the component. -/
def taxBrackets : List TaxBracket :=
  [⟨0, some 18200, 0, 0⟩,
   ⟨18201, some 45000, 16/100, 0⟩,
   ⟨45001, some 135000, 30/100, 4288⟩,
   ⟨135001, some 190000, 37/100, 31288⟩,
   ⟨190001, none, 45/100, 51638⟩]

/-- The loop condition `taxableIncome >= bracket.min && (bracket.max === null
|| taxableIncome <= bracket.max)`. -/
def inBracket (b : TaxBracket) (y : ℚ) : Bool :=
  decide (b.min ≤ y) && (match b.max with
    | none => true
    | some m => decide (y ≤ m))

/-- `getMarginalTaxRate`: rate of the first matching bracket, `0` when no
bracket matches. -/
def getMarginalTaxRate (y : ℚ) : ℚ :=
  match taxBrackets.find? (fun b => inBracket b y) with
  | some b => b.rate
  | none => 0

/-- `calculateLITO`, the low income tax offset. -/
def calculateLITO (t : ℚ) : ℚ :=
  if t ≤ 37500 then 700
  else if t ≤ 45000 then max 0 (700 - (t - 37500) * (5/100))
  else if t ≤ 66667 then max 0 (325 - (t - 45000) * (15/1000))
  else 0

/-- The progressive accumulation inside `calculateIncomeTax` (the running
`totalTax` before the offset is applied). -/
def bracketTaxRaw (t : ℚ) : ℚ :=
  (if 18200 < t then min (t - 18200) (45000 - 18200) * (16/100) else 0) +
  (if 45000 < t then min (t - 45000) (135000 - 45000) * (30/100) else 0) +
  (if 135000 < t then min (t - 135000) (190000 - 135000) * (37/100) else 0) +
  (if 190000 < t then (t - 190000) * (45/100) else 0)

/-- `calculateIncomeTax`: progressive bracket tax, reduced by the offset and
floored at `0`. -/
def calculateIncomeTax (t : ℚ) : ℚ :=
  max 0 (bracketTaxRaw t - calculateLITO t)

/-- `calculateMedicareLevy`. -/
def calculateMedicareLevy (t : ℚ) : ℚ :=
  if t ≤ 27222 then 0
  else if t ≤ 34027 then min ((t - 27222) * (1/10)) (t * (2/100))
  else t * (2/100)

/-- `calculateMedicareLevySurcharge`: first matching tier of the surcharge
table, flat on the full income. -/
def calculateMedicareLevySurcharge (t : ℚ) : ℚ :=
  if 0 ≤ t ∧ t ≤ 97000 then 0
  else if 97001 ≤ t ∧ t ≤ 113000 then t * (1/100)
  else if 113001 ≤ t ∧ t ≤ 151000 then t * (125/10000)
  else if 151001 ≤ t then t * (15/1000)
  else 0

/-- Income frequency of the tax calculator input. -/
inductive IncomeFrequency where
  | annual
  | monthly
  | weekly
deriving DecidableEq, Repr

/-- `getAnnualIncome`: frequency multiplier {weekly:52, monthly:12, annual:1}. -/
def getAnnualIncome (income : ℚ) : IncomeFrequency → ℚ
  | .weekly => income * 52
  | .monthly => income * 12
  | .annual => income

/-- Input record of the tax calculator. -/
structure TaxInputs where
  income : ℚ
  incomeFrequency : IncomeFrequency
deriving DecidableEq, Repr

/-- Result record of `calculateTax`. -/
structure TaxCalculationResults where
  grossIncome : ℚ
  taxableIncome : ℚ
  incomeTax : ℚ
  medicareLevy : ℚ
  medicareLevySurcharge : ℚ
  totalTax : ℚ
  netIncome : ℚ
  effectiveTaxRate : ℚ
  marginalTaxRate : ℚ
deriving DecidableEq, Repr

/-- The composed `calculateTax`: gated by the caller-side validity check
(income in `(0, 10000000]`), then grossIncome = annualized income,
taxableIncome = grossIncome, and the component taxes. -/
def calculateTax (i : TaxInputs) : Option TaxCalculationResults :=
  if i.income ≤ 0 ∨ 10000000 < i.income then none
  else
    let grossIncome := getAnnualIncome i.income i.incomeFrequency
    let taxableIncome := grossIncome
    let incomeTax := calculateIncomeTax taxableIncome
    let medicareLevy := calculateMedicareLevy taxableIncome
    let medicareLevySurcharge := calculateMedicareLevySurcharge taxableIncome
    let totalTax := incomeTax + medicareLevy + medicareLevySurcharge
    some {
      grossIncome := grossIncome
      taxableIncome := taxableIncome
      incomeTax := incomeTax
      medicareLevy := medicareLevy
      medicareLevySurcharge := medicareLevySurcharge
      totalTax := totalTax
      netIncome := grossIncome - totalTax
      effectiveTaxRate := if 0 < grossIncome then totalTax / grossIncome * 100 else 0
      marginalTaxRate := getMarginalTaxRate taxableIncome * 100 }

/-- One line of the tax breakdown table (the display label fields `range`
and `rate` are omitted; only the numeric columns matter here). -/
structure BreakdownLine where
  taxableAmount : ℚ
  taxAmount : ℚ
  isOffset : Bool
deriving DecidableEq, Repr

/-- `taxBreakdown`: one line per bracket entered plus, when positive, the
offset line carrying a negative tax amount. -/
def taxBreakdown (g : ℚ) : List BreakdownLine :=
  (if 0 < g then [⟨min g 18200, 0, false⟩] else []) ++
  (if 18200 < g then
    [⟨min (g - 18200) (45000 - 18200), min (g - 18200) (45000 - 18200) * (16/100), false⟩]
   else []) ++
  (if 45000 < g then
    [⟨min (g - 45000) (135000 - 45000), min (g - 45000) (135000 - 45000) * (30/100), false⟩]
   else []) ++
  (if 135000 < g then
    [⟨min (g - 135000) (190000 - 135000), min (g - 135000) (190000 - 135000) * (37/100), false⟩]
   else []) ++
  (if 190000 < g then [⟨g - 190000, (g - 190000) * (45/100), false⟩] else []) ++
  (if 0 < calculateLITO g then [⟨g, -(calculateLITO g), true⟩] else [])

/-- Sum of the `taxAmount` column of a breakdown. -/
def sumTaxAmount (l : List BreakdownLine) : ℚ :=
  (l.map BreakdownLine.taxAmount).sum

/-- Modelled from the spec: the closed form of `computeBracketTax` — "sum
over brackets whose floor < income of `min(income − floor, width) * rate`" —
over the progressive boundary table `(floor, ceiling, rate)` of the
jurisdiction.  Used to compare the spec wording against the engine's
hard-coded chain. -/
def specBracketTax (y : ℚ) : ℚ :=
  ([((0 : ℚ), some (18200 : ℚ), (0 : ℚ)),
    (18200, some 45000, 16/100),
    (45000, some 135000, 30/100),
    (135000, some 190000, 37/100),
    (190000, none, 45/100)].map
    (fun b =>
      if b.1 < y then
        (match b.2.1 with
          | some c => min (y - b.1) (c - b.1)
          | none => y - b.1) * b.2.2
      else 0)).sum

end TaxCalc

namespace Annualisation

/-- Pay frequency of the annualisation calculator. -/
inductive PayFrequency where
  | weekly
  | fortnightly
  | monthly
  | quarterly
deriving DecidableEq, Repr

/-- `payFrequencyConfig[...].periodsPerYear`: 52 | 26 | 12 | 4. -/
def periodsPerYearOf : PayFrequency → ℚ
  | .weekly => 52
  | .fortnightly => 26
  | .monthly => 12
  | .quarterly => 4

/-- Input record of the annualisation calculator. -/
structure AnnualisationInputs where
  ytdIncome : ℚ
  paysReceived : ℚ
  payFrequency : PayFrequency
deriving DecidableEq, Repr

/-- Result record of `calculateAnnualisation`. -/
structure AnnualisationResults where
  averagePayAmount : ℚ
  annualisedIncome : ℚ
  totalPayPeriodsInYear : ℚ
  remainingPayPeriods : ℚ
  projectedRemainingIncome : ℚ
  monthsElapsed : ℚ
deriving DecidableEq, Repr

/-- The weeks-equivalent of the received pays: ×1 weekly, ×2 fortnightly,
×4.33 monthly, ×13 quarterly. -/
def weeksElapsed (pays : ℚ) : PayFrequency → ℚ
  | .weekly => pays
  | .fortnightly => pays * 2
  | .monthly => pays * (433/100)
  | .quarterly => pays * 13

/-- `calculateAnnualisation`, gated by the validity check (`ytdIncome > 0`,
`0 < paysReceived ≤ periodsPerYear`). -/
def calculateAnnualisation (i : AnnualisationInputs) : Option AnnualisationResults :=
  if i.ytdIncome ≤ 0 ∨ i.paysReceived ≤ 0 ∨ periodsPerYearOf i.payFrequency < i.paysReceived then
    none
  else
    let periodsPerYear := periodsPerYearOf i.payFrequency
    let averagePayAmount := i.ytdIncome / i.paysReceived
    let remainingPayPeriods := periodsPerYear - i.paysReceived
    some {
      averagePayAmount := averagePayAmount
      annualisedIncome := averagePayAmount * periodsPerYear
      totalPayPeriodsInYear := periodsPerYear
      remainingPayPeriods := remainingPayPeriods
      projectedRemainingIncome := averagePayAmount * remainingPayPeriods
      monthsElapsed := weeksElapsed i.paysReceived i.payFrequency / (433/100) }

end Annualisation

namespace LoanCalc

lemma periodsPerYear_pos (f : Frequency) : 0 < periodsPerYear f := by
  cases f <;> norm_num [periodsPerYear]

lemma totalPeriods_pos {i : LoanInputs} (h : 0 < i.loanTerm) : 0 < totalPeriods i :=
  mul_pos h (periodsPerYear_pos i.repaymentFrequency)

lemma nPeriods_pos {i : LoanInputs} (hv : ValidLoan i) : 0 < nPeriods i := by
  have h := totalPeriods_pos hv.2.2.1
  rw [hv.2.2.2.2] at h
  exact_mod_cast h

lemma actualResidual_nonneg {i : LoanInputs} (hv : ValidLoan i) : 0 ≤ actualResidual i := by
  unfold actualResidual
  rcases h : i.hasResidualPayment with _ | _
  · simp
  · simpa using (hv.2.2.2.1 h).1

lemma principalToAmortize_pos {i : LoanInputs} (hv : ValidLoan i) :
    0 < i.loanAmount - actualResidual i := by
  unfold actualResidual
  rcases h : i.hasResidualPayment with _ | _
  · simpa using hv.1
  · simpa using sub_pos.mpr (hv.2.2.2.1 h).2

lemma not_rejected {i : LoanInputs} (hv : ValidLoan i) :
    ¬ (i.loanAmount ≤ 0 ∨ i.interestRate < 0 ∨ i.loanTerm ≤ 0) := by
  push_neg
  exact ⟨hv.1, hv.2.1, hv.2.2.1⟩

lemma periodicRate_nonneg {i : LoanInputs} (hv : ValidLoan i) : 0 ≤ periodicRate i :=
  div_nonneg (div_nonneg hv.2.1 (by norm_num)) (periodsPerYear_pos i.repaymentFrequency).le

lemma periodicRate_eq_zero_iff (i : LoanInputs) :
    periodicRate i = 0 ↔ i.interestRate = 0 := by
  unfold periodicRate
  rw [div_eq_zero_iff, div_eq_zero_iff]
  have := (periodsPerYear_pos i.repaymentFrequency).ne'
  simp [this]

lemma regularSchedule_length (rate pmt : ℚ) :
    ∀ (m : ℕ) (b : ℚ) (idx : ℕ), (regularSchedule rate pmt b idx m).length = m := by
  intro m
  induction m using Nat.strong_induction_on with
  | _ m ih =>
    match m with
    | 0 => intro b idx; rfl
    | 1 => intro b idx; rfl
    | (k + 2) =>
      intro b idx
      have := ih (k + 1) (by omega) (b - (pmt - b * rate)) (idx + 1)
      simp [regularSchedule, this]

lemma regularSchedule_entry_sum (rate pmt : ℚ) :
    ∀ (m : ℕ) (b : ℚ) (idx : ℕ), ∀ e ∈ regularSchedule rate pmt b idx m,
      e.principalAmount + e.interestAmount = e.paymentAmount := by
  intro m
  induction m using Nat.strong_induction_on with
  | _ m ih =>
    match m with
    | 0 => intro b idx e he; simp [regularSchedule] at he
    | 1 =>
      intro b idx e he
      simp only [regularSchedule, List.mem_singleton] at he
      subst he; rfl
    | (k + 2) =>
      intro b idx e he
      simp only [regularSchedule, List.mem_cons] at he
      rcases he with he | he
      · subst he; simp
      · exact ih (k + 1) (by omega) _ _ e he

lemma regularSchedule_sumPrincipals (rate pmt : ℚ) :
    ∀ (m : ℕ) (b : ℚ) (idx : ℕ),
      sumPrincipals (regularSchedule rate pmt b idx (m + 1)) = b := by
  intro m
  induction m with
  | zero => intro b idx; simp [regularSchedule, sumPrincipals]
  | succ k ih =>
    intro b idx
    have := ih (b - (pmt - b * rate)) (idx + 1)
    show sumPrincipals (regularSchedule rate pmt b idx (k + 2)) = b
    simp only [regularSchedule, sumPrincipals, List.map_cons, List.sum_cons] at this ⊢
    rw [this]
    ring

lemma regularSchedule_sumPayments (rate pmt : ℚ) :
    ∀ (m : ℕ) (b : ℚ) (idx : ℕ),
      sumPayments (regularSchedule rate pmt b idx (m + 1)) =
        m * pmt + balIter rate pmt b m * (1 + rate) := by
  intro m
  induction m with
  | zero => intro b idx; simp [regularSchedule, sumPayments, balIter]; ring
  | succ k ih =>
    intro b idx
    have := ih (b - (pmt - b * rate)) (idx + 1)
    show sumPayments (regularSchedule rate pmt b idx (k + 2)) = _
    simp only [regularSchedule, sumPayments, List.map_cons, List.sum_cons] at this ⊢
    rw [this]
    show pmt + (k * pmt + balIter rate pmt (b - (pmt - b * rate)) k * (1 + rate)) = _
    have hb : balIter rate pmt b (k + 1) = balIter rate pmt (b - (pmt - b * rate)) k := rfl
    rw [hb]
    push_cast
    ring

lemma balIter_mul_rate (rate pmt : ℚ) :
    ∀ (k : ℕ) (b : ℚ),
      rate * balIter rate pmt b k =
        rate * b * (1 + rate) ^ k - pmt * ((1 + rate) ^ k - 1) := by
  intro k
  induction k with
  | zero =>
    intro b
    rw [show balIter rate pmt b 0 = b from rfl]
    ring
  | succ j ih =>
    intro b
    have := ih (b - (pmt - b * rate))
    show rate * balIter rate pmt (b - (pmt - b * rate)) j = _
    rw [this]
    ring

lemma balIter_zero_rate (pmt : ℚ) :
    ∀ (k : ℕ) (b : ℚ), balIter 0 pmt b k = b - k * pmt := by
  intro k
  induction k with
  | zero => intro b; simp [balIter]
  | succ j ih =>
    intro b
    have := ih (b - (pmt - b * 0))
    show balIter 0 pmt (b - (pmt - b * 0)) j = _
    rw [this]
    push_cast
    ring

lemma regularSchedule_final_entry (rate pmt : ℚ) :
    ∀ (m : ℕ) (b : ℚ) (idx : ℕ),
      (regularSchedule rate pmt b idx (m + 1)).get? m =
        some { paymentNumber := idx + m
               paymentAmount := balIter rate pmt b m + balIter rate pmt b m * rate
               principalAmount := balIter rate pmt b m
               interestAmount := balIter rate pmt b m * rate
               remainingBalance := 0 } := by
  intro m
  induction m with
  | zero => intro b idx; rfl
  | succ k ih =>
    intro b idx
    have := ih (b - (pmt - b * rate)) (idx + 1)
    show (regularSchedule rate pmt b idx (k + 2)).get? (k + 1) = _
    simp only [regularSchedule, List.get?_cons_succ]
    rw [this]
    have hb : balIter rate pmt b (k + 1) = balIter rate pmt (b - (pmt - b * rate)) k := rfl
    rw [hb]
    have hidx : idx + 1 + k = idx + (k + 1) := by omega
    rw [hidx]

lemma natCast_num_toNat (k : ℕ) : ((k : ℚ)).num.toNat = k := by
  simp [Rat.num_natCast]

/-- Structure of the engine's result on a valid input: which fields it
carries in each rate branch. -/
lemma calc_spec {i : LoanInputs} (hv : ValidLoan i) :
    ∃ c, calculateLoanRepayments i = some c ∧
      c.periodsPerYear = periodsPerYear i.repaymentFrequency ∧
      c.totalPeriods = totalPeriods i ∧
      c.totalAmountPayable = c.repaymentPerPeriod * totalPeriods i + actualResidual i ∧
      (periodicRate i = 0 →
        c.repaymentPerPeriod = (i.loanAmount - actualResidual i) / totalPeriods i ∧
        c.totalInterest = 0) ∧
      (periodicRate i ≠ 0 →
        c.repaymentPerPeriod =
          (i.loanAmount - actualResidual i) * periodicRate i *
            (1 + periodicRate i) ^ nPeriods i /
            ((1 + periodicRate i) ^ nPeriods i - 1)) := by
  have hn : (totalPeriods i) ≠ 0 := (totalPeriods_pos hv.2.2.1).ne'
  unfold calculateLoanRepayments
  rw [if_neg (not_rejected hv)]
  by_cases hr : periodicRate i = 0
  · rw [if_pos hr]
    refine ⟨_, rfl, rfl, rfl, ?_, fun _ => ⟨rfl, rfl⟩, fun h => absurd hr h⟩
    show i.loanAmount - actualResidual i + actualResidual i =
      (i.loanAmount - actualResidual i) / totalPeriods i * totalPeriods i + actualResidual i
    rw [div_mul_cancel₀ _ hn]
  · rw [if_neg hr]
    exact ⟨_, rfl, rfl, rfl, rfl, fun h => absurd h hr, fun _ => rfl⟩

lemma powerTerm_gt_one {i : LoanInputs} (hv : ValidLoan i) (hr : periodicRate i ≠ 0) :
    1 < (1 + periodicRate i) ^ nPeriods i := by
  have hpos : 0 < periodicRate i := lt_of_le_of_ne (periodicRate_nonneg hv) (Ne.symm hr)
  exact one_lt_pow₀ (by linarith) (nPeriods_pos hv).ne'

lemma pmt_pos {i : LoanInputs} (hv : ValidLoan i) (hr : periodicRate i ≠ 0)
    {pmt : ℚ}
    (hpmt : pmt = (i.loanAmount - actualResidual i) * periodicRate i *
      (1 + periodicRate i) ^ nPeriods i / ((1 + periodicRate i) ^ nPeriods i - 1)) :
    0 < pmt := by
  have hpos : 0 < periodicRate i := lt_of_le_of_ne (periodicRate_nonneg hv) (Ne.symm hr)
  have hW := powerTerm_gt_one hv hr
  have hpta := principalToAmortize_pos hv
  rw [hpmt]
  have h1 : 0 < (1 + periodicRate i) ^ nPeriods i := by linarith
  exact div_pos (mul_pos (mul_pos hpta hpos) h1) (by linarith)

/-- The defining identity of the PMT formula:
`pmt * (W − 1) = pta * rate * W`. -/
lemma pmt_key {i : LoanInputs} (hv : ValidLoan i) (hr : periodicRate i ≠ 0)
    {pmt : ℚ}
    (hpmt : pmt = (i.loanAmount - actualResidual i) * periodicRate i *
      (1 + periodicRate i) ^ nPeriods i / ((1 + periodicRate i) ^ nPeriods i - 1)) :
    pmt * ((1 + periodicRate i) ^ nPeriods i - 1) =
      (i.loanAmount - actualResidual i) * periodicRate i *
        (1 + periodicRate i) ^ nPeriods i := by
  have hW := powerTerm_gt_one hv hr
  have hW1 : (1 + periodicRate i) ^ nPeriods i - 1 ≠ 0 := by linarith
  rw [hpmt, div_mul_cancel₀ _ hW1]

/-- With exact arithmetic the carried balance entering the final regular
period, grown by one period of interest, equals the nominal payment. -/
lemma balance_before_final {i : LoanInputs} (hv : ValidLoan i) {c : CalculationResults}
    (hc : calculateLoanRepayments i = some c) :
    balIter (periodicRate i) c.repaymentPerPeriod (i.loanAmount - actualResidual i)
      (nPeriods i - 1) * (1 + periodicRate i) = c.repaymentPerPeriod := by
  obtain ⟨c', hc', hppy, htp, hpay, hz, hnz⟩ := calc_spec hv
  rw [hc] at hc'
  obtain rfl : c = c' := by injection hc'
  have hn1 : 1 ≤ nPeriods i := nPeriods_pos hv
  have hcast : ((nPeriods i - 1 : ℕ) : ℚ) = (nPeriods i : ℚ) - 1 := by
    push_cast [hn1]
    ring
  by_cases hr : periodicRate i = 0
  · obtain ⟨hpmt, -⟩ := hz hr
    rw [hr, balIter_zero_rate, hcast, hpmt, hv.2.2.2.2]
    have hne : ((nPeriods i : ℕ) : ℚ) ≠ 0 := by
      exact_mod_cast (Nat.cast_pos.mpr (nPeriods_pos hv)).ne'
    field_simp
    ring
  · have hpmt := hnz hr
    have hkey := pmt_key hv hr hpmt
    have hrpos : 0 < periodicRate i := lt_of_le_of_ne (periodicRate_nonneg hv) (Ne.symm hr)
    have h2 := balIter_mul_rate (periodicRate i) c.repaymentPerPeriod (nPeriods i - 1)
      (i.loanAmount - actualResidual i)
    have hpow : (1 + periodicRate i) ^ (nPeriods i - 1) * (1 + periodicRate i) =
        (1 + periodicRate i) ^ nPeriods i := by
      rw [← pow_succ]
      congr 1
      omega
    refine mul_left_cancel₀ (ne_of_gt hrpos) ?_
    calc periodicRate i *
        (balIter (periodicRate i) c.repaymentPerPeriod (i.loanAmount - actualResidual i)
          (nPeriods i - 1) * (1 + periodicRate i))
        = (periodicRate i *
            balIter (periodicRate i) c.repaymentPerPeriod (i.loanAmount - actualResidual i)
              (nPeriods i - 1)) * (1 + periodicRate i) := by ring
      _ = (periodicRate i * (i.loanAmount - actualResidual i) *
            (1 + periodicRate i) ^ (nPeriods i - 1) -
          c.repaymentPerPeriod * ((1 + periodicRate i) ^ (nPeriods i - 1) - 1)) *
            (1 + periodicRate i) := by
          rw [h2]
      _ = periodicRate i * (i.loanAmount - actualResidual i) *
            ((1 + periodicRate i) ^ (nPeriods i - 1) * (1 + periodicRate i)) -
          c.repaymentPerPeriod *
            ((1 + periodicRate i) ^ (nPeriods i - 1) * (1 + periodicRate i)) +
          c.repaymentPerPeriod * (1 + periodicRate i) := by ring
      _ = periodicRate i * (i.loanAmount - actualResidual i) *
            (1 + periodicRate i) ^ nPeriods i -
          c.repaymentPerPeriod * (1 + periodicRate i) ^ nPeriods i +
          c.repaymentPerPeriod * (1 + periodicRate i) := by rw [hpow]
      _ = (i.loanAmount - actualResidual i) * periodicRate i *
            (1 + periodicRate i) ^ nPeriods i -
          c.repaymentPerPeriod * ((1 + periodicRate i) ^ nPeriods i - 1) +
          c.repaymentPerPeriod * periodicRate i := by ring
      _ = periodicRate i * c.repaymentPerPeriod := by
          rw [← hkey]
          ring

/-- On a valid input the generated schedule is the regular loop for
`nPeriods` entries, with the balloon entry appended exactly when the flag is
set and the residual is positive. -/
lemma schedule_form {i : LoanInputs} {c : CalculationResults} (hv : ValidLoan i)
    (hc : calculateLoanRepayments i = some c) :
    generateAmortizationSchedule i (calculateLoanRepayments i) =
      if i.hasResidualPayment = true ∧ 0 < i.residualPayment then
        regularSchedule (periodicRate i) c.repaymentPerPeriod
            (i.loanAmount - actualResidual i) 1 (nPeriods i) ++
          [{ paymentNumber := nPeriods i + 1
             paymentAmount := i.residualPayment
             principalAmount := i.residualPayment
             interestAmount := 0
             remainingBalance := 0 }]
      else
        regularSchedule (periodicRate i) c.repaymentPerPeriod
          (i.loanAmount - actualResidual i) 1 (nPeriods i) := by
  obtain ⟨c', hc', hppy, htp, -⟩ := calc_spec hv
  rw [hc] at hc'
  obtain rfl : c = c' := by injection hc'
  rw [hc]
  simp only [generateAmortizationSchedule]
  rw [hppy, htp, hv.2.2.2.2, natCast_num_toNat]
  rfl

lemma actualResidual_eq_zero_of_not_appended {i : LoanInputs} (hv : ValidLoan i)
    (h : ¬ (i.hasResidualPayment = true ∧ 0 < i.residualPayment)) :
    actualResidual i = 0 := by
  rcases hres : i.hasResidualPayment with _ | _
  · simp [actualResidual, hres]
  · have h1 := (hv.2.2.2.1 hres).1
    have h2 : ¬ 0 < i.residualPayment := fun hp => h ⟨hres, hp⟩
    simp only [actualResidual, hres, if_true]
    linarith [not_lt.mp h2]

end LoanCalc

open LoanCalc

/-- C1 counterexample: with principal `100 > 0`, rate `0`, term `1`, residual
flag enabled and residual `100 ≥ principal`, `calculateLoanRepayments` does
not return the error value `none`: the engine never guards
`residual ≥ principal`. -/
theorem claim1_counterexample :
    0 < residualAtPrincipal.loanAmount ∧
    0 ≤ residualAtPrincipal.interestRate ∧
    0 < residualAtPrincipal.loanTerm ∧
    residualAtPrincipal.hasResidualPayment = true ∧
    residualAtPrincipal.loanAmount ≤ residualAtPrincipal.residualPayment ∧
    calculateLoanRepayments residualAtPrincipal ≠ none := by
  refine ⟨by norm_num [residualAtPrincipal], by norm_num [residualAtPrincipal],
    by norm_num [residualAtPrincipal], by norm_num [residualAtPrincipal],
    by norm_num [residualAtPrincipal], ?_⟩
  simp [calculateLoanRepayments, residualAtPrincipal, periodicRate, totalPeriods,
    actualResidual, periodsPerYear]

/-- C1 amended: `calculateLoanRepayments` returns `InvalidInput` (`none`)
exactly when `principal ≤ 0`, `rate < 0`, or `term ≤ 0`; for every other
input — including a residual at or above the principal — it returns a
complete result.  The `residual ≥ principal` guard lives only in the
caller-side validation, not in the engine. -/
theorem claim1_amended (i : LoanInputs) :
    calculateLoanRepayments i = none ↔
      (i.loanAmount ≤ 0 ∨ i.interestRate < 0 ∨ i.loanTerm ≤ 0) := by
  unfold calculateLoanRepayments
  by_cases h : i.loanAmount ≤ 0 ∨ i.interestRate < 0 ∨ i.loanTerm ≤ 0
  · simp [h]
  · simp only [if_neg h, h, iff_false]
    by_cases hr : periodicRate i = 0 <;> simp [hr]

/-- C3 counterexample: the valid zero-rate input with principal `100`,
term 1 year monthly and residual `40` gets periodic payment
`(100 − 40)/12 = 5`, not `principal/totalPeriods = 100/12`. -/
theorem claim3_counterexample :
    ValidLoan zeroRateWithResidual ∧
    zeroRateWithResidual.interestRate = 0 ∧
    (calculateLoanRepayments zeroRateWithResidual).map CalculationResults.repaymentPerPeriod ≠
      some (zeroRateWithResidual.loanAmount / totalPeriods zeroRateWithResidual) := by
  refine ⟨?_, by norm_num [zeroRateWithResidual], ?_⟩
  · constructor
    · norm_num [zeroRateWithResidual]
    refine ⟨by norm_num [zeroRateWithResidual], by norm_num [zeroRateWithResidual],
      by norm_num [zeroRateWithResidual], ?_⟩
    show totalPeriods zeroRateWithResidual =
      ((totalPeriods zeroRateWithResidual).num.toNat : ℚ)
    have h : totalPeriods zeroRateWithResidual = 12 := by
      norm_num [totalPeriods, zeroRateWithResidual, periodsPerYear]
    rw [h]
    rfl
  · have h : calculateLoanRepayments zeroRateWithResidual = some ⟨5, 100, 0, 12, 12⟩ := by
      norm_num [calculateLoanRepayments, zeroRateWithResidual, periodicRate, totalPeriods,
        actualResidual, periodsPerYear, nPeriods]
    rw [h]
    norm_num [zeroRateWithResidual, totalPeriods, periodsPerYear]

/-- C3 amended: for every valid zero-rate input the payment is
`principalToAmortize / totalPeriods = (principal − actualResidual)/totalPeriods`
exactly and `totalInterest = 0`; when the residual feature is off this is
`principal / totalPeriods`. -/
theorem claim3_amended (i : LoanInputs) (hv : ValidLoan i) (h0 : i.interestRate = 0) :
    ∃ c, calculateLoanRepayments i = some c ∧
      c.repaymentPerPeriod = (i.loanAmount - actualResidual i) / totalPeriods i ∧
      c.totalInterest = 0 ∧
      (i.hasResidualPayment = false → c.repaymentPerPeriod = i.loanAmount / totalPeriods i) := by
  have hrate : periodicRate i = 0 := (periodicRate_eq_zero_iff i).mpr h0
  unfold calculateLoanRepayments
  rw [if_neg (not_rejected hv), if_pos hrate]
  refine ⟨_, rfl, rfl, rfl, fun hres => ?_⟩
  simp [actualResidual, hres]

/-- Witness for C3 amended at `$12,000`, `0%`, 1 year, monthly. -/
theorem claim3_amended_witness :
    ∃ c, calculateLoanRepayments ⟨12000, 0, 1, .monthly, false, 0⟩ = some c ∧
      c.repaymentPerPeriod =
        ((12000 : ℚ) - actualResidual ⟨12000, 0, 1, .monthly, false, 0⟩) /
          totalPeriods ⟨12000, 0, 1, .monthly, false, 0⟩ ∧
      c.totalInterest = 0 ∧
      ((⟨12000, 0, 1, .monthly, false, 0⟩ : LoanInputs).hasResidualPayment = false →
        c.repaymentPerPeriod = (12000 : ℚ) / totalPeriods ⟨12000, 0, 1, .monthly, false, 0⟩) := by
  refine claim3_amended ⟨12000, 0, 1, .monthly, false, 0⟩ ?_ (by norm_num)
  constructor
  · norm_num
  refine ⟨by norm_num, by norm_num, by norm_num, ?_⟩
  show totalPeriods _ = ((totalPeriods _).num.toNat : ℚ)
  have h : totalPeriods (⟨12000, 0, 1, .monthly, false, 0⟩ : LoanInputs) = 12 := by
    norm_num [totalPeriods, periodsPerYear]
  rw [h]
  rfl

/-- C10: when the residual flag is off, neither the payment calculation nor
the schedule depends on the `residualPayment` field. -/
theorem claim10_residual_noninterference (i j : LoanInputs)
    (hi : i.hasResidualPayment = false) (hj : j.hasResidualPayment = false)
    (hla : i.loanAmount = j.loanAmount) (hir : i.interestRate = j.interestRate)
    (hlt : i.loanTerm = j.loanTerm) (hf : i.repaymentFrequency = j.repaymentFrequency)
    (hne : i.residualPayment ≠ j.residualPayment) :
    calculateLoanRepayments i = calculateLoanRepayments j ∧
    generateAmortizationSchedule i (calculateLoanRepayments i) =
      generateAmortizationSchedule j (calculateLoanRepayments j) := by
  obtain ⟨la, ir, lt, f, hr, rp⟩ := i
  obtain ⟨la', ir', lt', f', hr', rp'⟩ := j
  simp only at hi hj hla hir hlt hf
  subst hi hj hla hir hlt hf
  have hcalc : calculateLoanRepayments ⟨la, ir, lt, f, false, rp⟩ =
      calculateLoanRepayments ⟨la, ir, lt, f, false, rp'⟩ := by
    simp [calculateLoanRepayments, periodicRate, totalPeriods, actualResidual, nPeriods]
  refine ⟨hcalc, ?_⟩
  rw [hcalc]
  cases hres : calculateLoanRepayments ⟨la, ir, lt, f, false, rp'⟩ with
  | none => simp [generateAmortizationSchedule]
  | some c => simp [generateAmortizationSchedule, actualResidual]

/-- Witness for C10 at two concrete inputs differing only in the (disabled)
residual field. -/
theorem claim10_witness :
    calculateLoanRepayments ⟨30000, 75/10, 5, .monthly, false, 5⟩ =
      calculateLoanRepayments ⟨30000, 75/10, 5, .monthly, false, 7⟩ ∧
    generateAmortizationSchedule ⟨30000, 75/10, 5, .monthly, false, 5⟩
        (calculateLoanRepayments ⟨30000, 75/10, 5, .monthly, false, 5⟩) =
      generateAmortizationSchedule ⟨30000, 75/10, 5, .monthly, false, 7⟩
        (calculateLoanRepayments ⟨30000, 75/10, 5, .monthly, false, 7⟩) :=
  claim10_residual_noninterference _ _ rfl rfl rfl rfl rfl rfl (by norm_num)

/-- C4: on every valid input, every schedule entry satisfies
`principalAmount + interestAmount = paymentAmount` exactly, and the final
regular entry (payment number `totalPeriods`, list position
`nPeriods − 1`) has `remainingBalance` exactly `0`. -/
theorem claim4_entry_invariants (i : LoanInputs) (hv : ValidLoan i) :
    (∀ e ∈ generateAmortizationSchedule i (calculateLoanRepayments i),
      e.principalAmount + e.interestAmount = e.paymentAmount) ∧
    (∃ e, (generateAmortizationSchedule i (calculateLoanRepayments i)).get?
        (nPeriods i - 1) = some e ∧
      e.paymentNumber = nPeriods i ∧ e.remainingBalance = 0) := by
  obtain ⟨c, hc, -⟩ := calc_spec hv
  obtain ⟨m, hm⟩ : ∃ m, nPeriods i = m + 1 := ⟨nPeriods i - 1, by
    have := nPeriods_pos hv
    omega⟩
  rw [schedule_form hv hc]
  constructor
  · intro e he
    by_cases hres : i.hasResidualPayment = true ∧ 0 < i.residualPayment
    · rw [if_pos hres] at he
      rcases List.mem_append.mp he with h | h
      · exact regularSchedule_entry_sum _ _ _ _ _ e h
      · simp only [List.mem_singleton] at h
        subst h
        simp
    · rw [if_neg hres] at he
      exact regularSchedule_entry_sum _ _ _ _ _ e he
  · have hlen : (regularSchedule (periodicRate i) c.repaymentPerPeriod
        (i.loanAmount - actualResidual i) 1 (nPeriods i)).length = nPeriods i :=
      regularSchedule_length _ _ _ _ _
    have hfin := regularSchedule_final_entry (periodicRate i) c.repaymentPerPeriod m
      (i.loanAmount - actualResidual i) 1
    rw [hm] at hlen ⊢
    simp only [Nat.add_sub_cancel]
    by_cases hres : i.hasResidualPayment = true ∧ 0 < i.residualPayment
    · rw [if_pos hres, List.get?_append (by omega)]
      exact ⟨_, hfin, Nat.add_comm 1 m, rfl⟩
    · rw [if_neg hres]
      exact ⟨_, hfin, Nat.add_comm 1 m, rfl⟩

/-- Witness for C4 at the standard `$30,000`, 7.5%, 5-year monthly input. -/
theorem claim4_witness :
    ValidLoan ⟨30000, 75/10, 5, .monthly, false, 0⟩ ∧
    ((∀ e ∈ generateAmortizationSchedule ⟨30000, 75/10, 5, .monthly, false, 0⟩
        (calculateLoanRepayments ⟨30000, 75/10, 5, .monthly, false, 0⟩),
      e.principalAmount + e.interestAmount = e.paymentAmount) ∧
    (∃ e, (generateAmortizationSchedule ⟨30000, 75/10, 5, .monthly, false, 0⟩
        (calculateLoanRepayments ⟨30000, 75/10, 5, .monthly, false, 0⟩)).get?
        (nPeriods ⟨30000, 75/10, 5, .monthly, false, 0⟩ - 1) = some e ∧
      e.paymentNumber = nPeriods ⟨30000, 75/10, 5, .monthly, false, 0⟩ ∧
      e.remainingBalance = 0)) := by
  have hv : ValidLoan ⟨30000, 75/10, 5, .monthly, false, 0⟩ := by
    refine ⟨by norm_num, by norm_num, by norm_num, by norm_num, ?_⟩
    show totalPeriods _ = ((totalPeriods _).num.toNat : ℚ)
    have h : totalPeriods (⟨30000, 75/10, 5, .monthly, false, 0⟩ : LoanInputs) = 60 := by
      norm_num [totalPeriods, periodsPerYear]
    rw [h]
    rfl
  exact ⟨hv, claim4_entry_invariants _ hv⟩

/-- C5: on every valid input, the `principalAmount` column summed over the
regular entries (the residual entry, when present, excluded via
`dropLast`) equals `principal − actualResidual`, and the `paymentAmount`
column summed over the whole schedule equals `totalAmountPayable`. -/
theorem claim5_schedule_sums (i : LoanInputs) (hv : ValidLoan i) :
    ∃ c, calculateLoanRepayments i = some c ∧
      sumPrincipals
        (if i.hasResidualPayment = true ∧ 0 < i.residualPayment then
          (generateAmortizationSchedule i (calculateLoanRepayments i)).dropLast
         else generateAmortizationSchedule i (calculateLoanRepayments i)) =
        i.loanAmount - actualResidual i ∧
      sumPayments (generateAmortizationSchedule i (calculateLoanRepayments i)) =
        c.totalAmountPayable := by
  obtain ⟨c, hc, hppy, htp, hpay, -⟩ := calc_spec hv
  obtain ⟨m, hm⟩ : ∃ m, nPeriods i = m + 1 := ⟨nPeriods i - 1, by
    have := nPeriods_pos hv
    omega⟩
  have hbal := balance_before_final hv hc
  rw [hm] at hbal
  simp only [Nat.add_sub_cancel] at hbal
  have hsumP : sumPrincipals (regularSchedule (periodicRate i) c.repaymentPerPeriod
      (i.loanAmount - actualResidual i) 1 (nPeriods i)) = i.loanAmount - actualResidual i := by
    rw [hm]
    exact regularSchedule_sumPrincipals _ _ _ _ _
  have hsumpay : sumPayments (regularSchedule (periodicRate i) c.repaymentPerPeriod
      (i.loanAmount - actualResidual i) 1 (nPeriods i)) =
      (nPeriods i : ℚ) * c.repaymentPerPeriod := by
    rw [hm, regularSchedule_sumPayments, hbal]
    push_cast
    ring
  have htotal : c.totalAmountPayable =
      c.repaymentPerPeriod * (nPeriods i : ℚ) + actualResidual i := by
    rw [hpay, hv.2.2.2.2]
  refine ⟨c, hc, ?_, ?_⟩
  · rw [schedule_form hv hc]
    by_cases hres : i.hasResidualPayment = true ∧ 0 < i.residualPayment
    · rw [if_pos hres, if_pos hres, List.dropLast_concat]
      exact hsumP
    · rw [if_neg hres, if_neg hres]
      exact hsumP
  · rw [schedule_form hv hc]
    by_cases hres : i.hasResidualPayment = true ∧ 0 < i.residualPayment
    · rw [if_pos hres]
      have hres0 : actualResidual i = i.residualPayment := by
        simp [actualResidual, hres.1]
      simp only [sumPayments, List.map_append, List.sum_append, List.map_cons,
        List.map_nil, List.sum_cons, List.sum_nil]
      rw [show ((regularSchedule (periodicRate i) c.repaymentPerPeriod
          (i.loanAmount - actualResidual i) 1 (nPeriods i)).map
            AmortizationEntry.paymentAmount).sum =
          sumPayments (regularSchedule (periodicRate i) c.repaymentPerPeriod
            (i.loanAmount - actualResidual i) 1 (nPeriods i)) from rfl, hsumpay,
        htotal, hres0]
      ring
    · rw [if_neg hres, hsumpay, htotal,
        actualResidual_eq_zero_of_not_appended hv hres]
      ring

/-- Witness for C5 at a 2-year monthly loan with a `$5,000` balloon. -/
theorem claim5_witness :
    ValidLoan ⟨20000, 5, 2, .monthly, true, 5000⟩ ∧
    ∃ c, calculateLoanRepayments ⟨20000, 5, 2, .monthly, true, 5000⟩ = some c ∧
      sumPrincipals
        (if (⟨20000, 5, 2, .monthly, true, 5000⟩ : LoanInputs).hasResidualPayment = true ∧
            0 < (⟨20000, 5, 2, .monthly, true, 5000⟩ : LoanInputs).residualPayment then
          (generateAmortizationSchedule ⟨20000, 5, 2, .monthly, true, 5000⟩
            (calculateLoanRepayments ⟨20000, 5, 2, .monthly, true, 5000⟩)).dropLast
         else generateAmortizationSchedule ⟨20000, 5, 2, .monthly, true, 5000⟩
            (calculateLoanRepayments ⟨20000, 5, 2, .monthly, true, 5000⟩)) =
        (20000 : ℚ) - actualResidual ⟨20000, 5, 2, .monthly, true, 5000⟩ ∧
      sumPayments (generateAmortizationSchedule ⟨20000, 5, 2, .monthly, true, 5000⟩
          (calculateLoanRepayments ⟨20000, 5, 2, .monthly, true, 5000⟩)) =
        c.totalAmountPayable := by
  have hv : ValidLoan ⟨20000, 5, 2, .monthly, true, 5000⟩ := by
    refine ⟨by norm_num, by norm_num, by norm_num, by norm_num, ?_⟩
    show totalPeriods _ = ((totalPeriods _).num.toNat : ℚ)
    have h : totalPeriods (⟨20000, 5, 2, .monthly, true, 5000⟩ : LoanInputs) = 24 := by
      norm_num [totalPeriods, periodsPerYear]
    rw [h]
    rfl
  exact ⟨hv, claim5_schedule_sums _ hv⟩

/-- The exact-balance invariant `E b m : rate*b*(1+rate)^m = pmt*((1+rate)^m − 1)`
(“`b` is amortized to exactly 0 by `m` payments of `pmt`”) propagates along
one loop step. -/
lemma balance_invariant_step {rate pmt b : ℚ} (m : ℕ)
    (hE : rate * b * (1 + rate) ^ (m + 1) = pmt * ((1 + rate) ^ (m + 1) - 1)) :
    rate * (b - (pmt - b * rate)) * (1 + rate) ^ m = pmt * ((1 + rate) ^ m - 1) := by
  linear_combination hE

lemma balance_invariant_rate_lt {rate pmt b : ℚ} (hr : 0 < rate) (hp : 0 < pmt) (m : ℕ)
    (hE : rate * b * (1 + rate) ^ (m + 1) = pmt * ((1 + rate) ^ (m + 1) - 1)) :
    rate * b < pmt := by
  have hpow : (0 : ℚ) < (1 + rate) ^ (m + 1) := pow_pos (by linarith) _
  have h1 : rate * b * (1 + rate) ^ (m + 1) < pmt * (1 + rate) ^ (m + 1) := by
    rw [hE]
    nlinarith
  exact lt_of_mul_lt_mul_right h1 hpow.le

lemma balance_invariant_b_pos {rate pmt b : ℚ} (hr : 0 < rate) (hp : 0 < pmt) (m : ℕ)
    (hE : rate * b * (1 + rate) ^ (m + 1) = pmt * ((1 + rate) ^ (m + 1) - 1)) :
    0 < b := by
  have hP : 1 < (1 + rate) ^ (m + 1) := one_lt_pow₀ (by linarith) (by omega)
  have h1 : 0 < pmt * ((1 + rate) ^ (m + 1) - 1) := mul_pos hp (by linarith)
  rw [← hE] at h1
  by_contra hb
  push_neg at hb
  have hP0 : (0 : ℚ) < (1 + rate) ^ (m + 1) := pow_pos (by linarith) _
  have h2 : rate * b ≤ 0 := mul_nonpos_iff.mpr (Or.inl ⟨hr.le, hb⟩)
  have h3 : rate * b * (1 + rate) ^ (m + 1) ≤ 0 :=
    mul_nonpos_iff.mpr (Or.inr ⟨h2, hP0.le⟩)
  linarith

lemma regularSchedule_head_interest (rate pmt b : ℚ) (idx m : ℕ) :
    ((regularSchedule rate pmt b idx (m + 1)).head?.map AmortizationEntry.interestAmount) =
      some (b * rate) := by
  match m with
  | 0 => rfl
  | (k + 1) => rfl

lemma regularSchedule_head_principal_one (rate pmt b : ℚ) (idx : ℕ) :
    ((regularSchedule rate pmt b idx 1).head?.map AmortizationEntry.principalAmount) =
      some b := rfl

lemma regularSchedule_head_principal_big (rate pmt b : ℚ) (idx k : ℕ) :
    ((regularSchedule rate pmt b idx (k + 2)).head?.map AmortizationEntry.principalAmount) =
      some (pmt - b * rate) := rfl

lemma regularSchedule_interest_nonneg {rate pmt : ℚ} (hr : 0 < rate) (hp : 0 < pmt) :
    ∀ (m : ℕ) (b : ℚ) (idx : ℕ),
      rate * b * (1 + rate) ^ (m + 1) = pmt * ((1 + rate) ^ (m + 1) - 1) →
      ∀ e ∈ regularSchedule rate pmt b idx (m + 1), 0 ≤ e.interestAmount := by
  intro m
  induction m with
  | zero =>
    intro b idx hE e he
    have hb := balance_invariant_b_pos hr hp 0 hE
    simp only [regularSchedule, List.mem_singleton] at he
    subst he
    have : (0 : ℚ) ≤ b * rate := by positivity
    exact this
  | succ k ih =>
    intro b idx hE e he
    have hb := balance_invariant_b_pos hr hp (k + 1) hE
    show 0 ≤ e.interestAmount
    rcases List.mem_cons.mp he with h | h
    · subst h
      show (0 : ℚ) ≤ b * rate
      positivity
    · exact ih _ _ (balance_invariant_step (k + 1) hE) e h

/-- Interest per entry is non-increasing along the regular schedule. -/
lemma regularSchedule_chain_interest {rate pmt : ℚ} (hr : 0 < rate) (hp : 0 < pmt) :
    ∀ (m : ℕ) (b : ℚ) (idx : ℕ),
      rate * b * (1 + rate) ^ (m + 1) = pmt * ((1 + rate) ^ (m + 1) - 1) →
      List.Chain' (fun a e => e.interestAmount ≤ a.interestAmount)
        (regularSchedule rate pmt b idx (m + 1)) := by
  intro m
  induction m with
  | zero => intro b idx hE; exact List.chain'_singleton _
  | succ k ih =>
    intro b idx hE
    have hlt := balance_invariant_rate_lt hr hp (k + 1) hE
    have hEstep := balance_invariant_step (k + 1) hE
    have hih := ih (b - (pmt - b * rate)) (idx + 1) hEstep
    show List.Chain' _ (_ :: regularSchedule rate pmt (b - (pmt - b * rate)) (idx + 1) (k + 1))
    rw [List.chain'_cons']
    refine ⟨?_, hih⟩
    intro y hy
    have hhead := regularSchedule_head_interest rate pmt (b - (pmt - b * rate)) (idx + 1) k
    rw [Option.mem_def] at hy
    rw [hy] at hhead
    simp only [Option.map_some', Option.some.injEq] at hhead
    show y.interestAmount ≤ b * rate
    rw [hhead]
    have hble : b - (pmt - b * rate) ≤ b := by linarith
    nlinarith

/-- Principal per entry is non-decreasing along the regular schedule. -/
lemma regularSchedule_chain_principal {rate pmt : ℚ} (hr : 0 < rate) (hp : 0 < pmt) :
    ∀ (m : ℕ) (b : ℚ) (idx : ℕ),
      rate * b * (1 + rate) ^ (m + 1) = pmt * ((1 + rate) ^ (m + 1) - 1) →
      List.Chain' (fun a e => a.principalAmount ≤ e.principalAmount)
        (regularSchedule rate pmt b idx (m + 1)) := by
  intro m
  induction m with
  | zero => intro b idx hE; exact List.chain'_singleton _
  | succ k ih =>
    intro b idx hE
    have hlt := balance_invariant_rate_lt hr hp (k + 1) hE
    have hEstep := balance_invariant_step (k + 1) hE
    have hih := ih (b - (pmt - b * rate)) (idx + 1) hEstep
    show List.Chain' _ (_ :: regularSchedule rate pmt (b - (pmt - b * rate)) (idx + 1) (k + 1))
    rw [List.chain'_cons']
    refine ⟨?_, hih⟩
    intro y hy
    rw [Option.mem_def] at hy
    show pmt - b * rate ≤ y.principalAmount
    match k, hy with
    | 0, hy =>
      have hhead := regularSchedule_head_principal_one rate pmt (b - (pmt - b * rate)) (idx + 1)
      rw [hy] at hhead
      simp only [Option.map_some', Option.some.injEq] at hhead
      rw [hhead]
      -- final-pair inequality, from the exact invariant at two remaining payments
      have key : b * (1 + rate) ^ 2 * rate = pmt * (2 * rate + rate ^ 2) := by
        linear_combination hE
      have h3 : (b * (1 + 2 * rate) - 2 * pmt) * ((1 + rate) ^ 2 * rate) = pmt * rate * rate := by
        linear_combination (1 + 2 * rate) * key
      have h4 : 0 < pmt * rate * rate := by positivity
      have h5 : (0 : ℚ) < (1 + rate) ^ 2 * rate := by positivity
      nlinarith [h3, h4, h5]
    | (j + 1), hy =>
      have hhead := regularSchedule_head_principal_big rate pmt (b - (pmt - b * rate)) (idx + 1) j
      rw [hy] at hhead
      simp only [Option.map_some', Option.some.injEq] at hhead
      rw [hhead]
      have hble : b - (pmt - b * rate) ≤ b := by linarith
      have := mul_le_mul_of_nonneg_right hble hr.le
      linarith

/-- The initial exact-balance invariant: the PMT payment amortizes
`principalToAmortize` to exactly `0` in `nPeriods` payments. -/
lemma balance_invariant_initial {i : LoanInputs} (hv : ValidLoan i)
    (hr : periodicRate i ≠ 0) {c : CalculationResults}
    (hc : calculateLoanRepayments i = some c) :
    periodicRate i * (i.loanAmount - actualResidual i) * (1 + periodicRate i) ^ nPeriods i =
      c.repaymentPerPeriod * ((1 + periodicRate i) ^ nPeriods i - 1) := by
  obtain ⟨c', hc', hppy, htp, hpay, hz, hnz⟩ := calc_spec hv
  rw [hc] at hc'
  obtain rfl : c = c' := by injection hc'
  have hkey := pmt_key hv hr (hnz hr)
  linear_combination - hkey

/-- C6 counterexample: for the valid input `⟨100, 12%, 1/12y, monthly,
residual 1⟩` (positive periodic rate), the full schedule returned by
`generateAmortizationSchedule` is NOT principal-non-decreasing: the final
regular entry repays `99` while the appended residual entry repays `1`. -/
theorem claim6_counterexample :
    ValidLoan smallResidualLoan ∧ 0 < periodicRate smallResidualLoan ∧
    ¬ List.Chain' (fun a e => a.principalAmount ≤ e.principalAmount)
      (generateAmortizationSchedule smallResidualLoan
        (calculateLoanRepayments smallResidualLoan)) := by
  refine ⟨?_, by norm_num [periodicRate, periodsPerYear, smallResidualLoan], ?_⟩
  · refine ⟨by norm_num [smallResidualLoan], by norm_num [smallResidualLoan],
      by norm_num [smallResidualLoan], by norm_num [smallResidualLoan], ?_⟩
    show totalPeriods smallResidualLoan = ((totalPeriods smallResidualLoan).num.toNat : ℚ)
    have h : totalPeriods smallResidualLoan = 1 := by
      norm_num [totalPeriods, smallResidualLoan, periodsPerYear]
    rw [h]
    rfl
  · have hcalc : calculateLoanRepayments smallResidualLoan =
        some ⟨9999/100, 10099/100, 99/100, 12, 1⟩ := by
      norm_num [calculateLoanRepayments, smallResidualLoan, periodicRate, totalPeriods,
        actualResidual, periodsPerYear, nPeriods]
    have hs : generateAmortizationSchedule smallResidualLoan
        (calculateLoanRepayments smallResidualLoan) =
        [⟨1, 99 + 99 * (1/100), 99, 99 * (1/100), 0⟩, ⟨2, 1, 1, 0, 0⟩] := by
      rw [hcalc]
      norm_num [generateAmortizationSchedule, regularSchedule, smallResidualLoan,
        actualResidual, Int.toNat_ofNat]
    rw [hs]
    intro hchain
    have := (List.chain'_cons.mp hchain).1
    norm_num at this

/-- C6 amended: on every valid input with positive periodic rate, the
interest column is non-increasing across the whole schedule (residual entry
included, since its interest is `0`), and the principal column is
non-decreasing across the regular entries — the appended residual entry is
excluded (via `dropLast`), because its principal is the residual amount and
may be smaller than the final regular principal. -/
theorem claim6_amended (i : LoanInputs) (hv : ValidLoan i) (hr : 0 < periodicRate i) :
    List.Chain' (fun a e => e.interestAmount ≤ a.interestAmount)
      (generateAmortizationSchedule i (calculateLoanRepayments i)) ∧
    List.Chain' (fun a e => a.principalAmount ≤ e.principalAmount)
      (if i.hasResidualPayment = true ∧ 0 < i.residualPayment then
        (generateAmortizationSchedule i (calculateLoanRepayments i)).dropLast
       else generateAmortizationSchedule i (calculateLoanRepayments i)) := by
  obtain ⟨c, hc, -⟩ := calc_spec hv
  have hrne : periodicRate i ≠ 0 := hr.ne'
  obtain ⟨c', hc', hppy, htp, hpay, hz, hnz⟩ := calc_spec hv
  rw [hc] at hc'
  obtain rfl : c = c' := by injection hc'
  have hpmt := hnz hrne
  have hppos : 0 < c.repaymentPerPeriod := pmt_pos hv hrne hpmt
  obtain ⟨m, hm⟩ : ∃ m, nPeriods i = m + 1 := ⟨nPeriods i - 1, by
    have := nPeriods_pos hv
    omega⟩
  have hE : periodicRate i * (i.loanAmount - actualResidual i) *
      (1 + periodicRate i) ^ (m + 1) =
      c.repaymentPerPeriod * ((1 + periodicRate i) ^ (m + 1) - 1) := by
    rw [← hm]
    exact balance_invariant_initial hv hrne hc
  have hchainI := regularSchedule_chain_interest hr hppos m
    (i.loanAmount - actualResidual i) 1 hE
  have hchainP := regularSchedule_chain_principal hr hppos m
    (i.loanAmount - actualResidual i) 1 hE
  rw [schedule_form hv hc, hm]
  constructor
  · by_cases hres : i.hasResidualPayment = true ∧ 0 < i.residualPayment
    · rw [if_pos hres, List.chain'_append]
      refine ⟨hchainI, List.chain'_singleton _, ?_⟩
      intro x hx y hy
      have hx' : x ∈ regularSchedule (periodicRate i) c.repaymentPerPeriod
          (i.loanAmount - actualResidual i) 1 (m + 1) :=
        List.mem_of_mem_getLast? hx
      have h0 := regularSchedule_interest_nonneg hr hppos m
        (i.loanAmount - actualResidual i) 1 hE x hx'
      simp only [List.head?_cons, Option.mem_def, Option.some.injEq] at hy
      subst hy
      exact h0
    · rw [if_neg hres]
      exact hchainI
  · by_cases hres : i.hasResidualPayment = true ∧ 0 < i.residualPayment
    · rw [if_pos hres, if_pos hres, List.dropLast_concat]
      exact hchainP
    · rw [if_neg hres, if_neg hres]
      exact hchainP

/-- Witness for C6 amended at the `$30,000`, 7.5%, 5-year monthly input. -/
theorem claim6_amended_witness :
    ValidLoan ⟨30000, 75/10, 5, .monthly, false, 0⟩ ∧
    0 < periodicRate ⟨30000, 75/10, 5, .monthly, false, 0⟩ ∧
    (List.Chain' (fun a e => e.interestAmount ≤ a.interestAmount)
      (generateAmortizationSchedule ⟨30000, 75/10, 5, .monthly, false, 0⟩
        (calculateLoanRepayments ⟨30000, 75/10, 5, .monthly, false, 0⟩)) ∧
    List.Chain' (fun a e => a.principalAmount ≤ e.principalAmount)
      (if (⟨30000, 75/10, 5, .monthly, false, 0⟩ : LoanInputs).hasResidualPayment = true ∧
          0 < (⟨30000, 75/10, 5, .monthly, false, 0⟩ : LoanInputs).residualPayment then
        (generateAmortizationSchedule ⟨30000, 75/10, 5, .monthly, false, 0⟩
          (calculateLoanRepayments ⟨30000, 75/10, 5, .monthly, false, 0⟩)).dropLast
       else generateAmortizationSchedule ⟨30000, 75/10, 5, .monthly, false, 0⟩
          (calculateLoanRepayments ⟨30000, 75/10, 5, .monthly, false, 0⟩))) := by
  have hv : ValidLoan ⟨30000, 75/10, 5, .monthly, false, 0⟩ := by
    refine ⟨by norm_num, by norm_num, by norm_num, by norm_num, ?_⟩
    show totalPeriods _ = ((totalPeriods _).num.toNat : ℚ)
    have h : totalPeriods (⟨30000, 75/10, 5, .monthly, false, 0⟩ : LoanInputs) = 60 := by
      norm_num [totalPeriods, periodsPerYear]
    rw [h]
    rfl
  have hr : 0 < periodicRate ⟨30000, 75/10, 5, .monthly, false, 0⟩ := by
    norm_num [periodicRate, periodsPerYear]
  exact ⟨hv, hr, claim6_amended _ hv hr⟩

namespace TaxCalc

lemma lito_nonneg (t : ℚ) : 0 ≤ calculateLITO t := by
  unfold calculateLITO
  split_ifs <;> norm_num

lemma sumTax_single (c : Prop) [Decidable c] (x : BreakdownLine) :
    ((if c then [x] else []).map BreakdownLine.taxAmount).sum =
      if c then x.taxAmount else 0 := by
  split_ifs <;> simp

/-- The breakdown's tax amounts always sum to the raw bracket tax minus the
offset (with no floor at zero). -/
lemma breakdown_sum (g : ℚ) :
    sumTaxAmount (taxBreakdown g) = bracketTaxRaw g - calculateLITO g := by
  have hlito := lito_nonneg g
  unfold sumTaxAmount taxBreakdown
  simp only [List.map_append, List.sum_append, sumTax_single]
  unfold bracketTaxRaw
  by_cases h6 : 0 < calculateLITO g
  · rw [if_pos h6]
    simp only [ite_self]
    split_ifs <;> ring
  · rw [if_neg h6]
    have h0 : calculateLITO g = 0 := le_antisymm (not_lt.mp h6) hlito
    rw [h0]
    simp only [ite_self]
    split_ifs <;> ring

end TaxCalc

open TaxCalc

/-- C2 counterexample: the valid input `$20,000` (annual) yields breakdown
lines `[0, 288, −700]` summing to `−412`, while the `incomeTax` field is
floored at `0`; the sum does not equal `incomeTax`. -/
theorem claim2_counterexample :
    ∃ r, calculateTax ⟨20000, .annual⟩ = some r ∧
      sumTaxAmount (taxBreakdown r.grossIncome) = -412 ∧
      r.incomeTax = 0 ∧
      sumTaxAmount (taxBreakdown r.grossIncome) ≠ r.incomeTax := by
  unfold calculateTax
  rw [if_neg (by norm_num)]
  refine ⟨_, rfl, ?_, ?_, ?_⟩
  · show sumTaxAmount (taxBreakdown (getAnnualIncome 20000 .annual)) = -412
    norm_num [getAnnualIncome, taxBreakdown, sumTaxAmount, calculateLITO]
  · show calculateIncomeTax (getAnnualIncome 20000 .annual) = 0
    norm_num [getAnnualIncome, calculateIncomeTax, bracketTaxRaw, calculateLITO]
  · show sumTaxAmount (taxBreakdown (getAnnualIncome 20000 .annual)) ≠
      calculateIncomeTax (getAnnualIncome 20000 .annual)
    norm_num [getAnnualIncome, taxBreakdown, sumTaxAmount, calculateLITO,
      calculateIncomeTax, bracketTaxRaw]

/-- C2 amended: for every valid input the breakdown lines sum to
`bracketTax − offset` (not floored), which equals the `incomeTax` field
exactly when `offset ≤ bracketTax`; below that point `incomeTax` is `0`
while the sum is negative. -/
theorem claim2_amended (income : ℚ) (f : IncomeFrequency)
    (h1 : 0 < income) (h2 : income ≤ 10000000) :
    ∃ r, calculateTax ⟨income, f⟩ = some r ∧
      sumTaxAmount (taxBreakdown r.grossIncome) =
        bracketTaxRaw r.taxableIncome - calculateLITO r.taxableIncome ∧
      (calculateLITO r.taxableIncome ≤ bracketTaxRaw r.taxableIncome →
        sumTaxAmount (taxBreakdown r.grossIncome) = r.incomeTax) := by
  unfold calculateTax
  rw [if_neg (by push_neg; exact ⟨h1, h2⟩)]
  refine ⟨_, rfl, ?_, ?_⟩
  · exact breakdown_sum _
  · intro h
    show sumTaxAmount (taxBreakdown (getAnnualIncome income f)) =
      calculateIncomeTax (getAnnualIncome income f)
    rw [breakdown_sum]
    unfold calculateIncomeTax
    rw [max_eq_right (sub_nonneg.mpr h)]

/-- Witness for C2 amended at `$50,000` annual (offset 250 ≤ bracket tax 5788). -/
theorem claim2_amended_witness :
    ∃ r, calculateTax ⟨50000, .annual⟩ = some r ∧
      sumTaxAmount (taxBreakdown r.grossIncome) =
        bracketTaxRaw r.taxableIncome - calculateLITO r.taxableIncome ∧
      (calculateLITO r.taxableIncome ≤ bracketTaxRaw r.taxableIncome →
        sumTaxAmount (taxBreakdown r.grossIncome) = r.incomeTax) :=
  claim2_amended 50000 .annual (by norm_num) (by norm_num)

/-- The spec's closed-form progressive sum over the bracket table agrees
with the engine's hard-coded chain. -/
lemma specBracketTax_eq_raw (y : ℚ) : specBracketTax y = bracketTaxRaw y := by
  unfold specBracketTax bracketTaxRaw
  simp only [List.map_cons, List.map_nil, List.sum_cons, List.sum_nil,
    mul_zero, ite_self, sub_zero]
  ring

/-- C7: on every valid input the result's `taxableIncome` is the annualized
gross income and `incomeTax = max(0, B − O)` where `B` is the progressive
bracket-table sum (`specBracketTax`, the spec's closed form) and `O` the
piecewise low-income offset. -/
theorem claim7_income_tax (income : ℚ) (f : IncomeFrequency)
    (h1 : 0 < income) (h2 : income ≤ 10000000) :
    ∃ r, calculateTax ⟨income, f⟩ = some r ∧
      r.grossIncome = getAnnualIncome income f ∧
      r.taxableIncome = r.grossIncome ∧
      r.incomeTax = max 0 (specBracketTax r.taxableIncome -
        calculateLITO r.taxableIncome) := by
  unfold calculateTax
  rw [if_neg (by push_neg; exact ⟨h1, h2⟩)]
  refine ⟨_, rfl, rfl, rfl, ?_⟩
  show calculateIncomeTax (getAnnualIncome income f) =
    max 0 (specBracketTax (getAnnualIncome income f) -
      calculateLITO (getAnnualIncome income f))
  rw [specBracketTax_eq_raw]
  rfl

/-- Witness for C7 at `$45,000` annual. -/
theorem claim7_witness :
    ∃ r, calculateTax ⟨45000, .annual⟩ = some r ∧
      r.grossIncome = getAnnualIncome 45000 .annual ∧
      r.taxableIncome = r.grossIncome ∧
      r.incomeTax = max 0 (specBracketTax r.taxableIncome -
        calculateLITO r.taxableIncome) :=
  claim7_income_tax 45000 .annual (by norm_num) (by norm_num)

/-- C8 counterexample: the non-integer income `18200.5 ≥ 0` falls in the gap
between the first bracket (ceiling 18200) and the second (floor 18201); no
configured bracket contains it. -/
theorem claim8_counterexample :
    (0 : ℚ) ≤ 36401/2 ∧
    ∀ b ∈ taxBrackets, ¬ inBracket b ((36401 : ℚ)/2) = true := by
  refine ⟨by norm_num, ?_⟩
  intro b hb
  fin_cases hb <;> simp [inBracket] <;> norm_num

/-- C8 amended: the bracket table is ordered and non-overlapping, and every
income `y ≥ 0` outside the four unit gaps `(18200,18201)`, `(45000,45001)`,
`(135000,135001)`, `(190000,190001)` lies in exactly one bracket, whose rate
`getMarginalTaxRate` returns.  (Incomes inside a gap match no bracket —
see the counterexample.) -/
theorem claim8_amended (y : ℚ) (h0 : 0 ≤ y)
    (hg1 : ¬ (18200 < y ∧ y < 18201)) (hg2 : ¬ (45000 < y ∧ y < 45001))
    (hg3 : ¬ (135000 < y ∧ y < 135001)) (hg4 : ¬ (190000 < y ∧ y < 190001)) :
    ∃ b, b ∈ taxBrackets ∧ inBracket b y = true ∧ getMarginalTaxRate y = b.rate ∧
      ∀ b', b' ∈ taxBrackets → inBracket b' y = true → b' = b := by
  rcases le_or_lt y 18200 with h1 | h1
  · refine ⟨⟨0, some 18200, 0, 0⟩, by simp [taxBrackets], ?_, ?_, ?_⟩
    · simp [inBracket]
      exact ⟨h0, h1⟩
    · unfold getMarginalTaxRate taxBrackets
      rw [List.find?_cons_of_pos _ (by simp [inBracket]; exact ⟨h0, h1⟩)]
    · intro b' hmem hin
      fin_cases hmem <;> simp [inBracket] at hin ⊢
      · exfalso; linarith [hin.1]
      · exfalso; linarith [hin.1]
      · exfalso; linarith [hin.1]
      · exfalso; linarith [hin]
  rcases le_or_lt y 45000 with h2 | h2
  · have h1a : 18201 ≤ y := by
      by_contra hc
      exact hg1 ⟨h1, by linarith [not_le.mp hc]⟩
    refine ⟨⟨18201, some 45000, 16/100, 0⟩, by simp [taxBrackets], ?_, ?_, ?_⟩
    · simp [inBracket]
      exact ⟨h1a, h2⟩
    · unfold getMarginalTaxRate taxBrackets
      rw [List.find?_cons_of_neg _ (by simp [inBracket]; intro _; linarith),
        List.find?_cons_of_pos _ (by simp [inBracket]; exact ⟨h1a, h2⟩)]
    · intro b' hmem hin
      fin_cases hmem <;> simp [inBracket] at hin ⊢
      · exfalso; linarith [hin.2]
      · exfalso; linarith [hin.1]
      · exfalso; linarith [hin.1]
      · exfalso; linarith [hin]
  rcases le_or_lt y 135000 with h3 | h3
  · have h2a : 45001 ≤ y := by
      by_contra hc
      exact hg2 ⟨h2, by linarith [not_le.mp hc]⟩
    refine ⟨⟨45001, some 135000, 30/100, 4288⟩, by simp [taxBrackets], ?_, ?_, ?_⟩
    · simp [inBracket]
      exact ⟨h2a, h3⟩
    · unfold getMarginalTaxRate taxBrackets
      rw [List.find?_cons_of_neg _ (by simp [inBracket]; intro _; linarith),
        List.find?_cons_of_neg _ (by simp [inBracket]; intro _; linarith),
        List.find?_cons_of_pos _ (by simp [inBracket]; exact ⟨h2a, h3⟩)]
    · intro b' hmem hin
      fin_cases hmem <;> simp [inBracket] at hin ⊢
      · exfalso; linarith [hin.2]
      · exfalso; linarith [hin.2]
      · exfalso; linarith [hin.1]
      · exfalso; linarith [hin]
  rcases le_or_lt y 190000 with h4 | h4
  · have h3a : 135001 ≤ y := by
      by_contra hc
      exact hg3 ⟨h3, by linarith [not_le.mp hc]⟩
    refine ⟨⟨135001, some 190000, 37/100, 31288⟩, by simp [taxBrackets], ?_, ?_, ?_⟩
    · simp [inBracket]
      exact ⟨h3a, h4⟩
    · unfold getMarginalTaxRate taxBrackets
      rw [List.find?_cons_of_neg _ (by simp [inBracket]; intro _; linarith),
        List.find?_cons_of_neg _ (by simp [inBracket]; intro _; linarith),
        List.find?_cons_of_neg _ (by simp [inBracket]; intro _; linarith),
        List.find?_cons_of_pos _ (by simp [inBracket]; exact ⟨h3a, h4⟩)]
    · intro b' hmem hin
      fin_cases hmem <;> simp [inBracket] at hin ⊢
      · exfalso; linarith [hin.2]
      · exfalso; linarith [hin.2]
      · exfalso; linarith [hin.2]
      · exfalso; linarith [hin]
  · have h4a : 190001 ≤ y := by
      by_contra hc
      exact hg4 ⟨h4, by linarith [not_le.mp hc]⟩
    refine ⟨⟨190001, none, 45/100, 51638⟩, by simp [taxBrackets], ?_, ?_, ?_⟩
    · simp [inBracket]
      exact h4a
    · unfold getMarginalTaxRate taxBrackets
      rw [List.find?_cons_of_neg _ (by simp [inBracket]; intro _; linarith),
        List.find?_cons_of_neg _ (by simp [inBracket]; intro _; linarith),
        List.find?_cons_of_neg _ (by simp [inBracket]; intro _; linarith),
        List.find?_cons_of_neg _ (by simp [inBracket]; intro _; linarith),
        List.find?_cons_of_pos _ (by simp [inBracket]; exact h4a)]
    · intro b' hmem hin
      fin_cases hmem <;> simp [inBracket] at hin ⊢
      · exfalso; linarith [hin.2]
      · exfalso; linarith [hin.2]
      · exfalso; linarith [hin.2]
      · exfalso; linarith [hin.2]

/-- Witness for C8 amended at `$50,000` (the 30% bracket). -/
theorem claim8_amended_witness :
    ∃ b, b ∈ taxBrackets ∧ inBracket b (50000 : ℚ) = true ∧
      getMarginalTaxRate (50000 : ℚ) = b.rate ∧
      ∀ b', b' ∈ taxBrackets → inBracket b' (50000 : ℚ) = true → b' = b :=
  claim8_amended 50000 (by norm_num) (by norm_num) (by norm_num) (by norm_num)
    (by norm_num)

open Annualisation

/-- C9: on every valid annualisation input (`ytdIncome > 0`,
`0 < paysReceived ≤ periodsPerYear`), the result satisfies
`averagePay = ytd/pays`, `annualised = averagePay * periodsPerYear`,
`remaining = periodsPerYear − pays`, `projected = averagePay * remaining`,
and `monthsElapsed = weeksEquivalent/4.33` with the per-frequency
weeks-equivalent (×1, ×2, ×4.33, ×13). -/
theorem claim9_annualisation (i : AnnualisationInputs)
    (h1 : 0 < i.ytdIncome) (h2 : 0 < i.paysReceived)
    (h3 : i.paysReceived ≤ periodsPerYearOf i.payFrequency) :
    ∃ r, calculateAnnualisation i = some r ∧
      r.averagePayAmount = i.ytdIncome / i.paysReceived ∧
      r.annualisedIncome = r.averagePayAmount * periodsPerYearOf i.payFrequency ∧
      r.totalPayPeriodsInYear = periodsPerYearOf i.payFrequency ∧
      r.remainingPayPeriods = periodsPerYearOf i.payFrequency - i.paysReceived ∧
      r.projectedRemainingIncome = r.averagePayAmount * r.remainingPayPeriods ∧
      r.monthsElapsed = weeksElapsed i.paysReceived i.payFrequency / (433/100) := by
  unfold calculateAnnualisation
  rw [if_neg (by push_neg; exact ⟨h1, h2, h3⟩)]
  exact ⟨_, rfl, rfl, rfl, rfl, rfl, rfl, rfl⟩

/-- Witness for C9 at YTD `$26,000` over 13 fortnightly pays. -/
theorem claim9_witness :
    ∃ r, calculateAnnualisation ⟨26000, 13, .fortnightly⟩ = some r ∧
      r.averagePayAmount = (26000 : ℚ) / 13 ∧
      r.annualisedIncome = r.averagePayAmount * periodsPerYearOf .fortnightly ∧
      r.totalPayPeriodsInYear = periodsPerYearOf .fortnightly ∧
      r.remainingPayPeriods = periodsPerYearOf .fortnightly - 13 ∧
      r.projectedRemainingIncome = r.averagePayAmount * r.remainingPayPeriods ∧
      r.monthsElapsed = weeksElapsed 13 .fortnightly / (433/100) :=
  claim9_annualisation ⟨26000, 13, .fortnightly⟩ (by norm_num)
    (by norm_num) (by norm_num [periodsPerYearOf])
